import Mathlib

/-!
Verification of the `client_certif_tls_authent` repository against its
natural-language specification.

The repository consists of two Python scripts:
* `serve_file.py` — a password-gated file download handler;
* `generate_file.py` — an OpenSSL-driven PKI generation pipeline with
  interactive overwrite prompts.

We give a shallow embedding: pure Python functions become Lean functions,
filesystem state becomes an explicit map `FS := String → Option String`,
operator replies / removal outcomes / subprocess exit codes become oracles
passed as parameters, and `sys.exit` on subprocess failure becomes an
`Except`-style early return threaded through the pipeline.
-/

namespace ClientCertifTLS

/-! ## Embedding of `serve_file.py` -/

/-- `check_password` from `serve_file.py` (line 15-16): exact string equality
of the candidate against the configured `--password` value. -/
def check_password (candidate configured : String) : Bool :=
  candidate == configured

/-- `download_file` from `serve_file.py` (lines 19-25).  The configured
`args.file` path is a parameter, and the `os.path.exists` probe is the
boolean parameter `fileOnDisk`.  Returns the path (served by the UI layer)
or one of the two in-band error strings. -/
def download_file (candidate configured filePath : String)
    (fileOnDisk : Bool) : String :=
  if !check_password candidate configured then "Invalid password"
  else if !fileOnDisk then "File not found"
  else filePath

/-! ## Python string primitives used by `generate_file.py`

`str.strip()`, `str.lower()`, `str.split(",")` and `textwrap.dedent` are
modelled character-exactly (over the ASCII whitespace range that
`str.strip()` removes). -/

/-- Characters removed by Python's `str.strip()` (ASCII whitespace). -/
def isPySpace (c : Char) : Bool :=
  c == ' ' || c == '\t' || c == '\n' || c == '\r' || c == '\x0b' || c == '\x0c'

/-- Python `s.strip()`: drop leading and trailing whitespace. -/
def pyStrip (s : String) : String :=
  ⟨((s.data.dropWhile isPySpace).reverse.dropWhile isPySpace).reverse⟩

/-- Python `s.lower()` (over the ASCII range the scripts use). -/
def pyLower (s : String) : String :=
  ⟨s.data.map Char.toLower⟩

/-- The normalisation `reply.strip().lower()` applied to each operator reply
in `ask_clean` (line 79). -/
def normReply (r : String) : String :=
  pyLower (pyStrip r)

/-- Split a character list at every occurrence of `sep`, keeping empty
parts (the semantics of Python's `str.split` with an explicit separator). -/
def splitOnChar (sep : Char) : List Char → List (List Char)
  | [] => [[]]
  | c :: cs =>
    if c = sep then [] :: splitOnChar sep cs
    else
      match splitOnChar sep cs with
      | [] => [[c]]
      | w :: ws => (c :: w) :: ws

/-- String-level wrapper for `splitOnChar`. -/
def splitStr (sep : Char) (s : String) : List String :=
  (splitOnChar sep s.data).map (fun l => ⟨l⟩)

/-- Python `s.split(",")`: split on every comma (never drops empty parts). -/
def pySplitComma (s : String) : List String :=
  splitStr ',' s

/-- Whether the char list `p` is a prefix of `l` (boolean, used to model the
margin comparisons inside `textwrap.dedent`). -/
def pfx : List Char → List Char → Bool
  | [], _ => true
  | _ :: _, [] => false
  | a :: as, b :: bs => a == b && pfx as bs

/-- A line consisting solely of spaces/tabs (and at least one character):
Python's `textwrap._whitespace_only_re`. -/
def wsOnlyLine (l : String) : Bool :=
  !(l.data.isEmpty) && l.data.all (fun c => c == ' ' || c == '\t')

/-- Leading space/tab run of a line: `textwrap._leading_whitespace_re`'s
captured group. -/
def leadingWs (l : String) : String :=
  ⟨l.data.takeWhile (fun c => c == ' ' || c == '\t')⟩

/-- One step of `textwrap.dedent`'s margin computation loop. -/
def marginStep (m : Option String) (ind : String) : Option String :=
  match m with
  | none => some ind
  | some mg =>
    if pfx mg.data ind.data then some mg
    else if pfx ind.data mg.data then some ind
    else some ""

/-- `textwrap.dedent`: blank out whitespace-only lines, compute the common
leading space/tab margin of the remaining non-empty lines, and strip that
margin from every line that starts with it. -/
def dedent (s : String) : String :=
  let blanked := (splitStr '\n' s).map
    (fun l => if wsOnlyLine l then "" else l)
  let indents := (blanked.filter (fun l => !(l.data.isEmpty))).map leadingWs
  let margin := (indents.foldl marginStep none).getD ""
  if margin = "" then String.intercalate "\n" blanked
  else String.intercalate "\n" (blanked.map
    (fun l => if pfx margin.data l.data then ⟨l.data.drop margin.length⟩ else l))

/-! ## Embedding of `generate_file.py`: arguments, paths, commands -/

/-- The parsed CLI arguments of `generate_file.py` (lines 94-122).
`days` and `keysize` are parsed with `type=int`, hence `Int`. -/
structure GenArgs where
  ca_dir : String
  server_dir : String
  client_dir : String
  ca_name : String
  server_name : String
  client_name : String
  ca_key : String
  ca_cert : String
  server_key : String
  server_csr : String
  server_cert : String
  client_key : String
  client_csr : String
  client_cert : String
  client_p12_pass : String
  days : Int
  client_alt_names : String
  keysize : Int
deriving DecidableEq

/-- `os.path.join(a, b)` (POSIX): an absolute `b` wins; otherwise the parts
are joined with a `/` unless `a` is empty or already ends in `/`. -/
def pathJoin (a b : String) : String :=
  if pfx ['/'] b.data then b
  else if a = "" then b
  else if a.data.getLast? = some '/' then a ++ b
  else a ++ "/" ++ b

/-- The nine external-toolchain generation steps of `main`
(lines 173-291), in source order. -/
inductive Step where
  | caKey
  | caCert
  | serverKey
  | serverCsr
  | serverCert
  | clientKey
  | clientCsr
  | clientCert
  | clientP12
deriving DecidableEq

/-- The fixed order in which `main` attempts the generation steps. -/
def pipelineSteps : List Step :=
  [Step.caKey, Step.caCert, Step.serverKey, Step.serverCsr, Step.serverCert,
   Step.clientKey, Step.clientCsr, Step.clientCert, Step.clientP12]

/-- The output artifact path of each generation step (the `-out` argument of
its `openssl` command; the PKCS#12 name `client.p12` is hard-coded at
line 280). -/
def stepPath (a : GenArgs) : Step → String
  | Step.caKey => pathJoin a.ca_dir a.ca_key
  | Step.caCert => pathJoin a.ca_dir a.ca_cert
  | Step.serverKey => pathJoin a.server_dir a.server_key
  | Step.serverCsr => pathJoin a.server_dir a.server_csr
  | Step.serverCert => pathJoin a.server_dir a.server_cert
  | Step.clientKey => pathJoin a.client_dir a.client_key
  | Step.clientCsr => pathJoin a.client_dir a.client_csr
  | Step.clientCert => pathJoin a.client_dir a.client_cert
  | Step.clientP12 => pathJoin a.client_dir "client.p12"

/-- `server_san_config` (line 127). -/
def serverSan (a : GenArgs) : String := pathJoin a.server_dir "san.cnf"

/-- `client_san_config` (line 128). -/
def clientSan (a : GenArgs) : String := pathJoin a.client_dir "san.cnf"

/-- The `files` list of `main` (lines 136-148), in source order. -/
def files (a : GenArgs) : List String :=
  [stepPath a Step.caKey, stepPath a Step.caCert,
   stepPath a Step.serverKey, stepPath a Step.serverCsr,
   stepPath a Step.serverCert,
   stepPath a Step.clientKey, stepPath a Step.clientCsr,
   stepPath a Step.clientCert, stepPath a Step.clientP12,
   serverSan a, clientSan a]

/-- The exact `openssl` argument vector each step passes to `run`. -/
def stepCmd (a : GenArgs) : Step → List String
  | Step.caKey =>
    ["openssl", "genpkey", "-algorithm", "RSA",
     "-out", stepPath a Step.caKey,
     "-pkeyopt", "rsa_keygen_bits:" ++ toString a.keysize]
  | Step.caCert =>
    ["openssl", "req", "-x509", "-new", "-nodes",
     "-key", stepPath a Step.caKey,
     "-sha256", "-days", toString a.days,
     "-out", stepPath a Step.caCert,
     "-subj", "/CN=" ++ a.ca_name]
  | Step.serverKey =>
    ["openssl", "genpkey", "-algorithm", "RSA",
     "-out", stepPath a Step.serverKey,
     "-pkeyopt", "rsa_keygen_bits:" ++ toString a.keysize]
  | Step.serverCsr =>
    ["openssl", "req", "-new",
     "-key", stepPath a Step.serverKey,
     "-out", stepPath a Step.serverCsr,
     "-config", serverSan a]
  | Step.serverCert =>
    ["openssl", "x509", "-req",
     "-in", stepPath a Step.serverCsr,
     "-CA", stepPath a Step.caCert,
     "-CAkey", stepPath a Step.caKey,
     "-CAcreateserial",
     "-out", stepPath a Step.serverCert,
     "-days", toString a.days,
     "-sha256",
     "-extfile", serverSan a,
     "-extensions", "req_ext"]
  | Step.clientKey =>
    ["openssl", "genpkey", "-algorithm", "RSA",
     "-out", stepPath a Step.clientKey,
     "-pkeyopt", "rsa_keygen_bits:" ++ toString a.keysize]
  | Step.clientCsr =>
    ["openssl", "req", "-new",
     "-key", stepPath a Step.clientKey,
     "-out", stepPath a Step.clientCsr,
     "-config", clientSan a]
  | Step.clientCert =>
    ["openssl", "x509", "-req",
     "-in", stepPath a Step.clientCsr,
     "-CA", stepPath a Step.caCert,
     "-CAkey", stepPath a Step.caKey,
     "-CAcreateserial",
     "-out", stepPath a Step.clientCert,
     "-days", toString a.days,
     "-sha256",
     "-extfile", clientSan a,
     "-extensions", "req_ext"]
  | Step.clientP12 =>
    ["openssl", "pkcs12", "-export",
     "-out", stepPath a Step.clientP12,
     "-inkey", stepPath a Step.clientKey,
     "-in", stepPath a Step.clientCert,
     "-name", "Client Certificate",
     "-passout", "pass:" ++ a.client_p12_pass]

/-- Line 125: `[s.strip() for s in args.client_alt_names.split(",") if s.strip()]`. -/
def parse_alt_names (s : String) : List String :=
  ((pySplitComma s).map pyStrip).filter (fun t => !(t == ""))

/-- The alternate-name list `main` passes to `write_san_config` for the
client (line 166): `[args.client_name] + client_alt_names`. -/
def clientSanNames (a : GenArgs) : List String :=
  a.client_name :: parse_alt_names a.client_alt_names

/-! ## Filesystem model and `write_san_config` -/

/-- A filesystem: each path either holds a file with some string content, or
no file. -/
def FS : Type := String → Option String

/-- `open(path, "w"); f.write(content)`: unconditional replacement. -/
def fsWrite (fs : FS) (p content : String) : FS :=
  fun q => if q = p then some content else fs q

/-- `os.remove(path)`. -/
def fsRemove (fs : FS) (p : String) : FS :=
  fun q => if q = p then none else fs q

/-- The `alt_lines` built at lines 51-53:
`DNS.{i} = {name}` with `i` counting from 1. -/
def sanAltLines (alt_names : List String) : List String :=
  alt_names.enum.map (fun p => "DNS." ++ toString (p.1 + 1) ++ " = " ++ p.2)

/-- The f-string template of `write_san_config` (lines 55-69) before
`textwrap.dedent` is applied: each template line carries the 8-space source
indentation, `alt_section` is the newline join of the `DNS.i` lines
(so `""` when there are none), and the literal ends with a newline and the
8 spaces preceding the closing quotes. -/
def sanPreContent (common_name : String) (alt_names : List String) : String :=
  let alt_section := String.intercalate "\n" (sanAltLines alt_names)
  "        [ req ]\n" ++
  "        distinguished_name = req_distinguished_name\n" ++
  "        req_extensions = req_ext\n" ++
  "        prompt = no\n" ++
  "\n" ++
  "        [ req_distinguished_name ]\n" ++
  "        CN = " ++ common_name ++ "\n" ++
  "\n" ++
  "        [ req_ext ]\n" ++
  "        subjectAltName = @alt_names\n" ++
  "\n" ++
  "        [ alt_names ]\n" ++
  "        " ++ alt_section ++ "\n" ++
  "        "

/-- The content `write_san_config` writes for a given common name and
alternate-name list. -/
def sanContent (common_name : String) (alt_names : List String) : String :=
  dedent (sanPreContent common_name alt_names)

/-- `write_san_config(path, common_name, alt_names)` (lines 46-72) as a
filesystem transformer. -/
def write_san_config (fs : FS) (path common_name : String)
    (alt_names : List String) : FS :=
  fsWrite fs path (sanContent common_name alt_names)

/-! ## `run` and the subprocess model

A subprocess invocation is summarised by its exit code (an oracle parameter)
and, when `capture_output=True` was used, the captured stdout/stderr.  `run`
returns the lines it prints and either success or the `sys.exit` code. -/

/-- `" ".join(cmd)` as printed at line 32. -/
def cmdLine (cmd : List String) : String :=
  String.intercalate " " cmd

/-- The failure line printed at line 39 (modelling the
`CalledProcessError` message, which names the command and the exit code). -/
def failReport (cmd : List String) (code : Int) : String :=
  "Command failed: Command " ++ cmdLine cmd ++
    " returned non-zero exit status " ++ toString code

/-- `run(cmd)` (lines 31-44): prints the command, and on a non-zero exit
code prints the failure report plus any captured stdout/stderr and
terminates the process with that exit code (`Except.error`). -/
def run (cmd : List String) (code : Int) (so se : Option String) :
    List String × Except Int Unit :=
  ((if code = 0 then [cmdLine cmd]
    else [cmdLine cmd, failReport cmd code] ++
      (match so with | some o => ["stdout: " ++ o] | none => []) ++
      (match se with | some e => ["stderr: " ++ e] | none => [])),
   if code = 0 then Except.ok () else Except.error code)

/-! ## `ask_clean` and the prompt phase -/

/-- The first reply in the operator's reply sequence that the `ask_clean`
while-loop (lines 78-91) accepts, normalised by `.strip().lower()`;
`none` when every supplied reply is invalid (the loop keeps prompting). -/
def firstValidReply : List String → Option String
  | [] => none
  | r :: rest =>
    let t := normReply r
    if t = "y" ∨ t = "yes" ∨ t = "n" ∨ t = "no" ∨ t = "" then some t
    else firstValidReply rest

/-- `ask_clean(path)` (lines 74-91).  `removeOk p` tells whether
`os.remove(p)` would succeed (`False` models the `except` branch at
lines 85-87).  Returns the updated filesystem and the function's boolean
result; `none` models the operator never giving a valid reply. -/
def askClean (fs : FS) (removeOk : String → Bool) (replies : List String)
    (p : String) : Option (FS × Bool) :=
  match fs p with
  | none => some (fs, true)
  | some _ =>
    match firstValidReply replies with
    | none => none
    | some t =>
      if t = "y" ∨ t = "yes" then
        if removeOk p then some (fsRemove fs p, true) else some (fs, false)
      else some (fs, false)

/-- Pointwise update of the `keep_map` dictionary. -/
def kmUpdate (km : String → Bool) (p : String) (b : Bool) : String → Bool :=
  fun q => if q = p then b else km q

/-- The `keep_map` loop of `main` (lines 150-157): for each listed file,
prompt if it exists (recording `not removed`), else record `False`.
`replies` gives the operator's reply sequence for each path's prompt.
Returns `none` if some prompt never receives a valid reply. -/
def promptPhase (removeOk : String → Bool) (replies : String → List String) :
    FS → (String → Bool) → List String → Option (FS × (String → Bool))
  | fs, km, [] => some (fs, km)
  | fs, km, f :: rest =>
    match fs f with
    | some _ =>
      match askClean fs removeOk (replies f) f with
      | none => none
      | some (fs2, removed) =>
        promptPhase removeOk replies fs2 (kmUpdate km f (!removed)) rest
    | none => promptPhase removeOk replies fs (kmUpdate km f false) rest

/-! ## The generation pipeline and `main` -/

/-- The generation steps of `main` (lines 173-291): each step is skipped
when `keep_map.get(path, False)` is true, otherwise its command runs; a
zero exit code writes the step's output artifact (content given by the
toolchain oracle `gen`) and continues, a non-zero exit code terminates the
process there (`sys.exit` inside `run`).  Returns the final filesystem, the
list of steps whose command was invoked, and the process exit code. -/
def pipelineExec (a : GenArgs) (km : String → Bool) (ec : Step → Int)
    (gen : Step → String) : FS → List Step → FS × List Step × Int
  | fs, [] => (fs, [], 0)
  | fs, s :: rest =>
    if km (stepPath a s) then pipelineExec a km ec gen fs rest
    else
      match (run (stepCmd a s) (ec s) none none).2 with
      | Except.ok _ =>
        let r := pipelineExec a km ec gen
          (fsWrite fs (stepPath a s) (gen s)) rest
        (r.1, s :: r.2.1, r.2.2)
      | Except.error c => (fs, [s], c)

/-- `main` (lines 122-295) as a filesystem transformer: the prompt phase
over the `files` list, then the two SAN-config writes gated on `keep_map`
(lines 159-168), then the nine-step generation pipeline.  `none` models a
prompt that never completes. -/
def mainRun (a : GenArgs) (removeOk : String → Bool)
    (replies : String → List String) (ec : Step → Int) (gen : Step → String)
    (fs : FS) : Option FS :=
  match promptPhase removeOk replies fs (fun _ => false) (files a) with
  | none => none
  | some (fs1, km) =>
    let fs2 := if km (serverSan a) then fs1
      else write_san_config fs1 (serverSan a) a.server_name [a.server_name]
    let fs3 := if km (clientSan a) then fs2
      else write_san_config fs2 (clientSan a) a.client_name (clientSanNames a)
    some (pipelineExec a km ec gen fs3 pipelineSteps).1

/-! ## Spec-side definitions (for refinement-style claims) -/

/-- Modelled from the spec's words (§8): "the client name unioned with the
de-duplicated, whitespace-trimmed, non-empty entries of the supplied
alternate-names list". -/
def specClientAltNameSet (name altStr : String) : List String :=
  name ::
    (((pySplitComma altStr).map pyStrip).filter (fun t => !(t == ""))).dedup

/-- The operator's reply sequence settles on a decline: the first valid
reply is `n`, `no`, or the empty default. -/
def declinedReplies (rs : List String) : Prop :=
  ∃ t, firstValidReply rs = some t ∧ (t = "n" ∨ t = "no" ∨ t = "")

/-- The operator's reply sequence settles on a confirmation: the first valid
reply is `y` or `yes`. -/
def confirmedReplies (rs : List String) : Prop :=
  ∃ t, firstValidReply rs = some t ∧ (t = "y" ∨ t = "yes")

/-- Modelled from the spec's words (§4.1, §7): the spec-shaped execution
trace of a list of pending steps — invoke each in order, stopping at the
first non-zero exit code; yields the invoked steps and the exit code
(`0` when every invocation succeeds). -/
def execTrace (ec : Step → Int) : List Step → List Step × Int
  | [] => ([], 0)
  | s :: rest =>
    if ec s = 0 then
      let r := execTrace ec rest
      (s :: r.1, r.2)
    else ([s], ec s)

/-! ## Sample data used by the witness theorems -/

/-- The example invocation from the script's own usage docstring
(default filenames, the documented names and alternate names). -/
def sampleArgs : GenArgs where
  ca_dir := "ca"
  server_dir := "server"
  client_dir := "client"
  ca_name := "MyCA"
  server_name := "MyServer"
  client_name := "MyClient"
  ca_key := "ca.key"
  ca_cert := "ca.crt"
  server_key := "server.key"
  server_csr := "server.csr"
  server_cert := "server.crt"
  client_key := "client.key"
  client_csr := "client.csr"
  client_cert := "client.crt"
  client_p12_pass := "secret"
  days := 365
  client_alt_names := "client.local,alt.example"
  keysize := 2048

/-- An empty disk. -/
def fsEmpty : FS := fun _ => none

/-- A disk holding only a pre-existing CA key with known content. -/
def sampleFS : FS :=
  fun q => if q = "ca/ca.key" then some "OLD" else none

/-! ## Claim theorems: serve_file.py and write_san_config -/

/-- C3: `check_password(candidate)` returns true if and only if the
candidate exactly equals the configured password string — case-sensitive,
with no trimming or normalization of either string (it is plain string
equality). -/
theorem C3_check_password_iff_exact_equal (candidate configured : String) :
    check_password candidate configured = true ↔ candidate = configured := by
  simp [check_password]

/-- Witness for C3 at a concrete password. -/
theorem C3_check_password_iff_exact_equal_witness :
    check_password "s3cret" "s3cret" = true :=
  (C3_check_password_iff_exact_equal "s3cret" "s3cret").mpr rfl

/-- C2: `download(candidate)` returns the configured file path when the
password check holds and the configured file exists, the string
`"Invalid password"` when the check fails (regardless of file existence),
and the string `"File not found"` when the check holds but the file does
not exist. -/
theorem C2_download_file_case_analysis
    (candidate configured filePath : String) (onDisk : Bool) :
    (check_password candidate configured = true → onDisk = true →
      download_file candidate configured filePath onDisk = filePath) ∧
    (check_password candidate configured = false →
      download_file candidate configured filePath onDisk =
        "Invalid password") ∧
    (check_password candidate configured = true → onDisk = false →
      download_file candidate configured filePath onDisk =
        "File not found") := by
  refine ⟨fun h1 h2 => ?_, fun h1 => ?_, fun h1 h2 => ?_⟩
  · simp [download_file, h1, h2]
  · simp [download_file, h1]
  · simp [download_file, h1, h2]

/-- Witness for C2: the three cases at concrete inputs. -/
theorem C2_download_file_case_analysis_witness :
    download_file "correct" "correct" "data.bin" true = "data.bin" ∧
    download_file "wrong" "correct" "data.bin" true = "Invalid password" ∧
    download_file "correct" "correct" "data.bin" false = "File not found" :=
  ⟨(C2_download_file_case_analysis "correct" "correct" "data.bin" true).1
      rfl rfl,
   (C2_download_file_case_analysis "wrong" "correct" "data.bin" true).2.1
      rfl,
   (C2_download_file_case_analysis "correct" "correct" "data.bin" false).2.2
      rfl rfl⟩

/-- C1: the alternate-name set written into the client SAN configuration
(the list `main` passes to `write_san_config` at line 166) equals, as a
set, the client name unioned with the de-duplicated, whitespace-trimmed,
non-empty entries of the supplied `--client-alt-names` string. -/
theorem C1_client_san_alt_name_set (a : GenArgs) (x : String) :
    x ∈ clientSanNames a ↔
      x ∈ specClientAltNameSet a.client_name a.client_alt_names := by
  simp [clientSanNames, specClientAltNameSet, parse_alt_names,
    List.mem_dedup]

/-- Witness for C1 at the documented example invocation. -/
theorem C1_client_san_alt_name_set_witness :
    "alt.example" ∈ clientSanNames sampleArgs :=
  (C1_client_san_alt_name_set sampleArgs "alt.example").mpr (by decide)

/-- C8: `write_san_config` writes a deterministic function of the common
name and alternate-name list at the target path, replacing whatever the
path previously held, irrespective of the prior filesystem state. -/
theorem C8_write_san_config_deterministic_overwrite
    (fs fs2 : FS) (path common_name : String) (alt_names : List String) :
    write_san_config fs path common_name alt_names path =
      some (sanContent common_name alt_names) ∧
    write_san_config fs path common_name alt_names path =
      write_san_config fs2 path common_name alt_names path := by
  constructor <;> simp [write_san_config, fsWrite]

/-- Witness for C8 at concrete inputs (two different prior disks). -/
theorem C8_write_san_config_deterministic_overwrite_witness :
    write_san_config sampleFS "server/san.cnf" "MyServer" ["MyServer"]
        "server/san.cnf" =
      some (sanContent "MyServer" ["MyServer"]) ∧
    write_san_config sampleFS "server/san.cnf" "MyServer" ["MyServer"]
        "server/san.cnf" =
      write_san_config fsEmpty "server/san.cnf" "MyServer" ["MyServer"]
        "server/san.cnf" :=
  C8_write_san_config_deterministic_overwrite sampleFS fsEmpty
    "server/san.cnf" "MyServer" ["MyServer"]

/-! ## Pipeline lemmas -/

/-- `run`'s outcome component. -/
lemma run_snd (cmd : List String) (code : Int) (so se : Option String) :
    (run cmd code so se).2 =
      if code = 0 then Except.ok () else Except.error code := rfl

/-- The invoked-step list and exit code of `pipelineExec` are exactly the
spec-shaped trace of the non-kept steps, independent of the filesystem and
of the toolchain content oracle. -/
lemma pipelineExec_trace (a : GenArgs) (km : String → Bool)
    (ec : Step → Int) (gen : Step → String) :
    ∀ (L : List Step) (fs : FS),
      (pipelineExec a km ec gen fs L).2 =
        execTrace ec (L.filter (fun s => !km (stepPath a s))) := by
  intro L
  induction L with
  | nil => intro fs; rfl
  | cons s rest ih =>
    intro fs
    by_cases hk : km (stepPath a s) = true
    · simp [pipelineExec, hk, List.filter_cons, ih]
    · by_cases he : ec s = 0
      · simp [pipelineExec, hk, run_snd, he, List.filter_cons, execTrace, ih]
      · simp [pipelineExec, hk, run_snd, he, List.filter_cons, execTrace]

/-- The spec-shaped trace only invokes steps of the pending list, in the
pending list's order. -/
lemma execTrace_sublist (ec : Step → Int) :
    ∀ l : List Step, List.Sublist (execTrace ec l).1 l := by
  intro l
  induction l with
  | nil => simp [execTrace]
  | cons s rest ih =>
    by_cases he : ec s = 0
    · simpa [execTrace, he] using List.Sublist.cons₂ s ih
    · simp [execTrace, he]

/-- If every invoked step succeeded, the trace's exit code is `0`. -/
lemma execTrace_zero (ec : Step → Int) :
    ∀ l : List Step, (∀ s ∈ (execTrace ec l).1, ec s = 0) →
      (execTrace ec l).2 = 0 := by
  intro l
  induction l with
  | nil => intro _; rfl
  | cons s rest ih =>
    intro h
    by_cases he : ec s = 0
    · simp only [execTrace, he, if_pos]
      exact ih (fun t ht => h t (by simp [execTrace, he, ht]))
    · exact absurd (h s (by simp [execTrace, he])) he

/-- If an invoked step failed, it is the last invoked step, every step
invoked before it succeeded, and the trace's exit code is its exit code. -/
lemma execTrace_fail (ec : Step → Int) :
    ∀ (l : List Step) (s : Step), s ∈ (execTrace ec l).1 → ec s ≠ 0 →
      (execTrace ec l).2 = ec s ∧
      ∃ pre, (execTrace ec l).1 = pre ++ [s] ∧ ∀ t ∈ pre, ec t = 0 := by
  intro l
  induction l with
  | nil => intro s hs; simp [execTrace] at hs
  | cons h rest ih =>
    intro s hs hne
    by_cases he : ec h = 0
    · simp only [execTrace, he, if_pos] at hs ⊢
      rcases List.mem_cons.mp hs with heq | hmem
      · exact absurd (heq ▸ he) hne
      · obtain ⟨h2, pre, hpre, hall⟩ := ih s hmem hne
        exact ⟨h2, h :: pre, by simp [hpre],
          fun t ht => by
            rcases List.mem_cons.mp ht with rfl | ht2
            · exact he
            · exact hall t ht2⟩
    · simp only [execTrace, he, if_neg, not_false_iff] at hs ⊢
      rcases List.mem_singleton.mp hs with rfl
      exact ⟨rfl, [], rfl, by simp⟩

/-- C4: in any generator run, a toolchain invocation exiting non-zero is
reported (its command line and exit code appear in what `run` prints), no
further pipeline step runs after it (everything invoked before it
succeeded and it is the last invocation), and the process terminates with
exactly that invocation's exit code; when no invocation fails, the process
exit code is `0`. -/
theorem C4_failure_aborts_with_exit_code :
    (∀ (cmd : List String) (code : Int) (so se : Option String),
      code ≠ 0 →
        (run cmd code so se).2 = Except.error code ∧
        failReport cmd code ∈ (run cmd code so se).1) ∧
    (∀ (a : GenArgs) (km : String → Bool) (ec : Step → Int)
        (gen : Step → String) (fs : FS),
      (∀ s ∈ (pipelineExec a km ec gen fs pipelineSteps).2.1, ec s = 0) →
        (pipelineExec a km ec gen fs pipelineSteps).2.2 = 0) ∧
    (∀ (a : GenArgs) (km : String → Bool) (ec : Step → Int)
        (gen : Step → String) (fs : FS) (s : Step),
      s ∈ (pipelineExec a km ec gen fs pipelineSteps).2.1 → ec s ≠ 0 →
        (pipelineExec a km ec gen fs pipelineSteps).2.2 = ec s ∧
        ∃ pre, (pipelineExec a km ec gen fs pipelineSteps).2.1 = pre ++ [s] ∧
          ∀ t ∈ pre, ec t = 0) := by
  refine ⟨fun cmd code so se hne => ⟨by simp [run_snd, hne], ?_⟩,
    fun a km ec gen fs h => ?_, fun a km ec gen fs s hs hne => ?_⟩
  · simp [run, hne]
  · rw [pipelineExec_trace] at h ⊢
    exact execTrace_zero ec _ h
  · rw [pipelineExec_trace] at hs ⊢
    exact execTrace_fail ec _ s hs hne

/-- Witness for C4: a failing `openssl` invocation, and a concrete pipeline
run in which the server-key step exits with code `2`. -/
theorem C4_failure_aborts_with_exit_code_witness :
    ((run ["openssl", "version"] 1 none none).2 = Except.error 1 ∧
      failReport ["openssl", "version"] 1 ∈
        (run ["openssl", "version"] 1 none none).1) ∧
    ((pipelineExec sampleArgs (fun _ => false)
          (fun s => if s = Step.serverKey then 2 else 0) (fun _ => "NEW")
          fsEmpty pipelineSteps).2.2 = 2 ∧
      ∃ pre,
        (pipelineExec sampleArgs (fun _ => false)
            (fun s => if s = Step.serverKey then 2 else 0) (fun _ => "NEW")
            fsEmpty pipelineSteps).2.1 = pre ++ [Step.serverKey] ∧
        ∀ t ∈ pre,
          (if t = Step.serverKey then (2 : Int) else 0) = 0) :=
  ⟨C4_failure_aborts_with_exit_code.1 ["openssl", "version"] 1 none none
      (by decide),
   by
    have h2 :=
      C4_failure_aborts_with_exit_code.2.2 sampleArgs (fun _ => false)
        (fun s => if s = Step.serverKey then 2 else 0) (fun _ => "NEW")
        fsEmpty Step.serverKey (by decide) (by decide)
    simpa using h2⟩

/-- C6: `main` attempts the generation steps in the fixed order CA key,
CA certificate, server key, server CSR, server certificate, client key,
client CSR, client certificate, PKCS#12 bundle, and in every run the
sequence of steps actually invoked is a subsequence of that fixed order
(no later step ever runs before an earlier one). -/
theorem C6_pipeline_fixed_order :
    pipelineSteps =
      [Step.caKey, Step.caCert, Step.serverKey, Step.serverCsr,
       Step.serverCert, Step.clientKey, Step.clientCsr, Step.clientCert,
       Step.clientP12] ∧
    ∀ (a : GenArgs) (km : String → Bool) (ec : Step → Int)
        (gen : Step → String) (fs : FS),
      List.Sublist (pipelineExec a km ec gen fs pipelineSteps).2.1
        pipelineSteps := by
  refine ⟨rfl, fun a km ec gen fs => ?_⟩
  rw [pipelineExec_trace]
  exact (execTrace_sublist ec _).trans (List.filter_sublist _)

/-- Witness for C6 at a concrete run. -/
theorem C6_pipeline_fixed_order_witness :
    List.Sublist
      (pipelineExec sampleArgs (fun q => q == "server/server.key")
          (fun _ => 0) (fun _ => "NEW") fsEmpty pipelineSteps).2.1
      pipelineSteps :=
  C6_pipeline_fixed_order.2 sampleArgs (fun q => q == "server/server.key")
    (fun _ => 0) (fun _ => "NEW") fsEmpty

/-! ## Prompt-phase lemmas -/

/-- Unfolding equation: a listed file absent on disk is recorded as not
kept, with no prompt. -/
lemma promptPhase_cons_none (removeOk : String → Bool)
    (replies : String → List String) (fs : FS) (km : String → Bool)
    (f : String) (rest : List String) (hf : fs f = none) :
    promptPhase removeOk replies fs km (f :: rest) =
      promptPhase removeOk replies fs (kmUpdate km f false) rest := by
  simp [promptPhase, hf]

/-- Unfolding equation: a listed file present on disk is prompted for, and
the dictionary records the negation of `ask_clean`'s result. -/
lemma promptPhase_cons_some (removeOk : String → Bool)
    (replies : String → List String) (fs : FS) (km : String → Bool)
    (f : String) (rest : List String) (v : String) (fs2 : FS)
    (removed : Bool) (hf : fs f = some v)
    (ha : askClean fs removeOk (replies f) f = some (fs2, removed)) :
    promptPhase removeOk replies fs km (f :: rest) =
      promptPhase removeOk replies fs2 (kmUpdate km f (!removed)) rest := by
  simp [promptPhase, hf, ha]

/-- Unfolding equation: a prompt that never receives a valid reply stalls
the whole phase. -/
lemma promptPhase_cons_stuck (removeOk : String → Bool)
    (replies : String → List String) (fs : FS) (km : String → Bool)
    (f : String) (rest : List String) (v : String) (hf : fs f = some v)
    (ha : askClean fs removeOk (replies f) f = none) :
    promptPhase removeOk replies fs km (f :: rest) = none := by
  simp [promptPhase, hf, ha]

/-- `ask_clean` either leaves the disk unchanged or removes exactly the
prompted path. -/
lemma askClean_cases (fs : FS) (removeOk : String → Bool)
    (rs : List String) (f : String) (out : FS × Bool)
    (h : askClean fs removeOk rs f = some out) :
    out.1 = fs ∨ out.1 = fsRemove fs f := by
  unfold askClean at h
  split at h
  · exact Or.inl (by rw [← Option.some.inj h])
  · split at h
    · cases h
    · split at h
      · split at h
        · exact Or.inr (by rw [← Option.some.inj h])
        · exact Or.inl (by rw [← Option.some.inj h])
      · exact Or.inl (by rw [← Option.some.inj h])

/-- `ask_clean` on one path never touches any other path. -/
lemma askClean_preserves_other (fs : FS) (removeOk : String → Bool)
    (rs : List String) (f p : String) (hne : f ≠ p) (out : FS × Bool)
    (h : askClean fs removeOk rs f = some out) : out.1 p = fs p := by
  have hpf : ¬p = f := fun e => hne e.symm
  rcases askClean_cases fs removeOk rs f out h with h1 | h1 <;> rw [h1]
  simp [fsRemove, hpf]

/-- The prompt for `p` always completes with "kept": it removes nothing and
returns `false`. -/
def keepsOn (removeOk : String → Bool) (rs : List String) (p : String) :
    Prop :=
  ∀ fsx : FS, (fsx p).isSome = true →
    askClean fsx removeOk rs p = some (fsx, false)

/-- An operator who declines keeps the file. -/
lemma declined_keeps (removeOk : String → Bool) (rs : List String)
    (p : String) (h : declinedReplies rs) : keepsOn removeOk rs p := by
  obtain ⟨t, hr, hd⟩ := h
  intro fsx hsome
  cases hf : fsx p with
  | none => rw [hf] at hsome; simp at hsome
  | some v =>
    have hy : ¬(t = "y" ∨ t = "yes") := by
      rcases hd with rfl | rfl | rfl <;> decide
    simp only [askClean, hf, hr]
    rw [if_neg hy]

/-- An operator who confirms removal when the removal itself fails also
keeps the file. -/
lemma confirmed_fail_keeps (removeOk : String → Bool) (rs : List String)
    (p : String) (h : confirmedReplies rs) (hro : removeOk p = false) :
    keepsOn removeOk rs p := by
  obtain ⟨t, hr, hy⟩ := h
  intro fsx hsome
  cases hf : fsx p with
  | none => rw [hf] at hsome; simp at hsome
  | some v =>
    simp only [askClean, hf, hr]
    rw [if_pos hy, hro]
    simp

/-- Through the whole prompt phase, a path whose prompt always answers
"keep" retains its content, and ends up marked kept whenever it was in the
prompted list. -/
lemma promptPhase_keeps (removeOk : String → Bool)
    (replies : String → List String) (p c : String)
    (hk : keepsOn removeOk (replies p) p) :
    ∀ (L : List String) (fs : FS) (km : String → Bool),
      fs p = some c →
      ∀ out, promptPhase removeOk replies fs km L = some out →
        out.1 p = some c ∧
        out.2 p = (if p ∈ L then true else km p) := by
  intro L
  induction L with
  | nil =>
    intro fs km hfs out h
    cases h
    exact ⟨hfs, by simp⟩
  | cons f rest ih =>
    intro fs km hfs out h
    by_cases hfp : f = p
    · subst hfp
      have hac := hk fs (by rw [hfs]; rfl)
      rw [promptPhase_cons_some removeOk replies fs km f rest c fs false
        hfs hac] at h
      obtain ⟨h1, h2⟩ := ih fs (kmUpdate km f (!false)) hfs out h
      refine ⟨h1, ?_⟩
      rw [h2]
      by_cases hmem : f ∈ rest <;> simp [hmem, kmUpdate]
    · have hpf : ¬p = f := fun e => hfp e.symm
      cases hf : fs f with
      | none =>
        rw [promptPhase_cons_none removeOk replies fs km f rest hf] at h
        obtain ⟨h1, h2⟩ := ih fs (kmUpdate km f false) hfs out h
        refine ⟨h1, ?_⟩
        rw [h2]
        simp [List.mem_cons, hpf, kmUpdate]
      | some v =>
        cases hac : askClean fs removeOk (replies f) f with
        | none =>
          rw [promptPhase_cons_stuck removeOk replies fs km f rest v hf hac]
            at h
          cases h
        | some pr =>
          obtain ⟨fs2, removed⟩ := pr
          rw [promptPhase_cons_some removeOk replies fs km f rest v fs2
            removed hf hac] at h
          have hfs2 : fs2 p = some c :=
            (askClean_preserves_other fs removeOk (replies f) f p hfp
              (fs2, removed) hac).trans hfs
          obtain ⟨h1, h2⟩ := ih fs2 (kmUpdate km f (!removed)) hfs2 out h
          refine ⟨h1, ?_⟩
          rw [h2]
          simp [List.mem_cons, hpf, kmUpdate]

/-- Through the whole prompt phase, an absent path stays absent and ends
up marked not-kept whenever it was in the prompted list. -/
lemma promptPhase_absent (removeOk : String → Bool)
    (replies : String → List String) (p : String) :
    ∀ (L : List String) (fs : FS) (km : String → Bool),
      fs p = none →
      ∀ out, promptPhase removeOk replies fs km L = some out →
        out.1 p = none ∧
        out.2 p = (if p ∈ L then false else km p) := by
  intro L
  induction L with
  | nil =>
    intro fs km hfs out h
    cases h
    exact ⟨hfs, by simp⟩
  | cons f rest ih =>
    intro fs km hfs out h
    by_cases hfp : f = p
    · subst hfp
      rw [promptPhase_cons_none removeOk replies fs km f rest hfs] at h
      obtain ⟨h1, h2⟩ := ih fs (kmUpdate km f false) hfs out h
      refine ⟨h1, ?_⟩
      rw [h2]
      by_cases hmem : f ∈ rest <;> simp [hmem, kmUpdate]
    · have hpf : ¬p = f := fun e => hfp e.symm
      cases hf : fs f with
      | none =>
        rw [promptPhase_cons_none removeOk replies fs km f rest hf] at h
        obtain ⟨h1, h2⟩ := ih fs (kmUpdate km f false) hfs out h
        refine ⟨h1, ?_⟩
        rw [h2]
        simp [List.mem_cons, hpf, kmUpdate]
      | some v =>
        cases hac : askClean fs removeOk (replies f) f with
        | none =>
          rw [promptPhase_cons_stuck removeOk replies fs km f rest v hf hac]
            at h
          cases h
        | some pr =>
          obtain ⟨fs2, removed⟩ := pr
          rw [promptPhase_cons_some removeOk replies fs km f rest v fs2
            removed hf hac] at h
          have hfs2 : fs2 p = none :=
            (askClean_preserves_other fs removeOk (replies f) f p hfp
              (fs2, removed) hac).trans hfs
          obtain ⟨h1, h2⟩ := ih fs2 (kmUpdate km f (!removed)) hfs2 out h
          refine ⟨h1, ?_⟩
          rw [h2]
          simp [List.mem_cons, hpf, kmUpdate]

/-! ## Pipeline filesystem lemmas -/

/-- Unfolding equation: a step whose artifact is marked kept is skipped. -/
lemma pipelineExec_cons_kept (a : GenArgs) (km : String → Bool)
    (ec : Step → Int) (gen : Step → String) (fs : FS) (s : Step)
    (rest : List Step) (h : km (stepPath a s) = true) :
    pipelineExec a km ec gen fs (s :: rest) =
      pipelineExec a km ec gen fs rest := by
  simp [pipelineExec, h]

/-- Unfolding equation (filesystem component): a successfully invoked step
writes its artifact and the pipeline continues. -/
lemma pipelineExec_fst_cons_ok (a : GenArgs) (km : String → Bool)
    (ec : Step → Int) (gen : Step → String) (fs : FS) (s : Step)
    (rest : List Step) (h : km (stepPath a s) = false) (he : ec s = 0) :
    (pipelineExec a km ec gen fs (s :: rest)).1 =
      (pipelineExec a km ec gen
        (fsWrite fs (stepPath a s) (gen s)) rest).1 := by
  simp [pipelineExec, h, run_snd, he]

/-- Unfolding equation: a failing step terminates the process with its exit
code, leaving the filesystem as it stood. -/
lemma pipelineExec_cons_fail (a : GenArgs) (km : String → Bool)
    (ec : Step → Int) (gen : Step → String) (fs : FS) (s : Step)
    (rest : List Step) (h : km (stepPath a s) = false) (he : ¬ec s = 0) :
    pipelineExec a km ec gen fs (s :: rest) = (fs, [s], ec s) := by
  simp [pipelineExec, h, run_snd, he]

/-- The pipeline never writes to a path marked kept. -/
lemma pipelineExec_kept_path (a : GenArgs) (km : String → Bool)
    (ec : Step → Int) (gen : Step → String) (p : String)
    (hp : km p = true) :
    ∀ (L : List Step) (fs : FS),
      (pipelineExec a km ec gen fs L).1 p = fs p := by
  intro L
  induction L with
  | nil => intro fs; rfl
  | cons s rest ih =>
    intro fs
    by_cases hk : km (stepPath a s) = true
    · rw [pipelineExec_cons_kept a km ec gen fs s rest hk]
      exact ih fs
    · simp only [Bool.not_eq_true] at hk
      have hps : ¬p = stepPath a s := by
        intro e
        rw [e] at hp
        rw [hp] at hk
        cases hk
      by_cases he : ec s = 0
      · rw [pipelineExec_fst_cons_ok a km ec gen fs s rest hk he, ih]
        simp [fsWrite, hps]
      · rw [pipelineExec_cons_fail a km ec gen fs s rest hk he]

/-- The pipeline never deletes: a path with content keeps having content. -/
lemma pipelineExec_defined (a : GenArgs) (km : String → Bool)
    (ec : Step → Int) (gen : Step → String) (q : String) :
    ∀ (L : List Step) (fs : FS), (fs q).isSome = true →
      ((pipelineExec a km ec gen fs L).1 q).isSome = true := by
  intro L
  induction L with
  | nil => intro fs h; exact h
  | cons s rest ih =>
    intro fs h
    by_cases hk : km (stepPath a s) = true
    · rw [pipelineExec_cons_kept a km ec gen fs s rest hk]
      exact ih fs h
    · simp only [Bool.not_eq_true] at hk
      by_cases he : ec s = 0
      · rw [pipelineExec_fst_cons_ok a km ec gen fs s rest hk he]
        refine ih _ ?_
        by_cases hq : q = stepPath a s <;> simp [fsWrite, hq, h]
      · rw [pipelineExec_cons_fail a km ec gen fs s rest hk he]
        exact h

/-- When every invocation succeeds, a pending step whose artifact is not
marked kept leaves its artifact present on disk. -/
lemma pipelineExec_writes (a : GenArgs) (km : String → Bool)
    (ec : Step → Int) (gen : Step → String) (s : Step)
    (hz : ∀ t, ec t = 0) (hkm : km (stepPath a s) = false) :
    ∀ (L : List Step) (fs : FS), s ∈ L →
      ((pipelineExec a km ec gen fs L).1 (stepPath a s)).isSome = true := by
  intro L
  induction L with
  | nil => intro fs h; simp at h
  | cons t rest ih =>
    intro fs hmem
    rcases List.mem_cons.mp hmem with rfl | hmem2
    · rw [pipelineExec_fst_cons_ok a km ec gen fs s rest hkm (hz s)]
      exact pipelineExec_defined a km ec gen (stepPath a s) rest _
        (by simp [fsWrite])
    · by_cases hk : km (stepPath a t) = true
      · rw [pipelineExec_cons_kept a km ec gen fs t rest hk]
        exact ih fs hmem2
      · simp only [Bool.not_eq_true] at hk
        rw [pipelineExec_fst_cons_ok a km ec gen fs t rest hk (hz t)]
        exact ih _ hmem2

/-! ## Claim C5 -/

/-- C5: an artifact of the generator's file list that exists before the run
and whose removal the operator declines at its prompt is never written,
removed, or regenerated: if the run completes, the file's content is
byte-identical to what it held before. -/
theorem C5_declined_artifact_byte_identical (a : GenArgs)
    (removeOk : String → Bool) (replies : String → List String)
    (ec : Step → Int) (gen : Step → String) (fs : FS) (p c : String)
    (hmem : p ∈ files a) (hfs : fs p = some c)
    (hdec : declinedReplies (replies p)) :
    Option.all (fun g => decide (g p = some c))
      (mainRun a removeOk replies ec gen fs) = true := by
  unfold mainRun
  cases hpp : promptPhase removeOk replies fs (fun _ => false) (files a) with
  | none => rfl
  | some out =>
    obtain ⟨fs1, km⟩ := out
    obtain ⟨h1, h2⟩ := promptPhase_keeps removeOk replies p c
      (declined_keeps removeOk (replies p) p hdec) (files a) fs
      (fun _ => false) hfs (fs1, km) hpp
    have h1' : fs1 p = some c := h1
    have hkm : km p = true := by
      have := h2
      rw [if_pos hmem] at this
      exact this
    simp only [Option.all, decide_eq_true_eq]
    rw [pipelineExec_kept_path a km ec gen p hkm]
    have hsan2 : (if km (serverSan a) then fs1
        else write_san_config fs1 (serverSan a) a.server_name
          [a.server_name]) p = some c := by
      by_cases hs : km (serverSan a) = true
      · rw [if_pos hs]
        exact h1'
      · have hne : ¬p = serverSan a := by
          intro e
          rw [← e] at hs
          exact hs hkm
        rw [if_neg hs]
        simp only [write_san_config, fsWrite]
        rw [if_neg hne]
        exact h1'
    by_cases hc : km (clientSan a) = true
    · rw [if_pos hc]
      exact hsan2
    · have hne : ¬p = clientSan a := by
        intro e
        rw [← e] at hc
        exact hc hkm
      rw [if_neg hc]
      simp only [write_san_config, fsWrite]
      rw [if_neg hne]
      exact hsan2

/-- Witness for C5: a pre-existing CA key whose prompt the operator
declines survives a full run byte-identically. -/
theorem C5_declined_artifact_byte_identical_witness :
    Option.all (fun g => decide (g "ca/ca.key" = some "OLD"))
      (mainRun sampleArgs (fun _ => true) (fun _ => ["n"]) (fun _ => 0)
        (fun _ => "NEW") sampleFS) = true :=
  C5_declined_artifact_byte_identical sampleArgs (fun _ => true)
    (fun _ => ["n"]) (fun _ => 0) (fun _ => "NEW") sampleFS "ca/ca.key"
    "OLD" (by decide) (by decide) ⟨"n", by decide, by decide⟩

/-- C7: when the operator confirms removal of an existing artifact but the
filesystem removal itself fails, the failure is handled as a decline:
`ask_clean` returns `false` with the disk unchanged, the prompt phase marks
the artifact kept, the artifact's generation step is never invoked, and the
pipeline skips the step and continues rather than terminating. -/
theorem C7_removal_failure_treated_as_kept (a : GenArgs)
    (removeOk : String → Bool) (replies : String → List String)
    (ec : Step → Int) (gen : Step → String) (fs : FS) (p c : String)
    (hfs : fs p = some c) (hyes : confirmedReplies (replies p))
    (hro : removeOk p = false) :
    askClean fs removeOk (replies p) p = some (fs, false) ∧
    (p ∈ files a →
      ∀ out, promptPhase removeOk replies fs (fun _ => false) (files a) =
          some out → out.2 p = true) ∧
    (∀ (km : String → Bool) (fs2 : FS) (L : List Step) (s : Step),
      km p = true → stepPath a s = p →
      s ∉ (pipelineExec a km ec gen fs2 L).2.1) ∧
    (∀ (km : String → Bool) (fs2 : FS) (rest : List Step) (s : Step),
      km p = true → stepPath a s = p →
      pipelineExec a km ec gen fs2 (s :: rest) =
        pipelineExec a km ec gen fs2 rest) := by
  have hkeeps := confirmed_fail_keeps removeOk (replies p) p hyes hro
  refine ⟨hkeeps fs (by rw [hfs]; rfl), ?_, ?_, ?_⟩
  · intro hmem out h
    obtain ⟨_, h2⟩ := promptPhase_keeps removeOk replies p c hkeeps
      (files a) fs (fun _ => false) hfs out h
    rw [h2, if_pos hmem]
  · intro km fs2 L s hkm hsp hin
    rw [pipelineExec_trace] at hin
    have hsub := (execTrace_sublist ec
      (L.filter (fun t => !km (stepPath a t)))).subset hin
    have hflt := List.mem_filter.mp hsub
    rw [hsp, hkm] at hflt
    simp at hflt
  · intro km fs2 rest s hkm hsp
    exact pipelineExec_cons_kept a km ec gen fs2 s rest
      (by rw [hsp]; exact hkm)

/-- Witness for C7: a confirmed-but-failing removal of `ca/ca.key` keeps
the file and the CA-key step is never invoked. -/
theorem C7_removal_failure_treated_as_kept_witness :
    askClean sampleFS (fun _ => false) ["y"] "ca/ca.key" =
      some (sampleFS, false) ∧
    Step.caKey ∉ (pipelineExec sampleArgs (fun q => q == "ca/ca.key")
        (fun _ => 0) (fun _ => "NEW") sampleFS pipelineSteps).2.1 := by
  have h := C7_removal_failure_treated_as_kept sampleArgs (fun _ => false)
    (fun _ => ["y"]) (fun _ => 0) (fun _ => "NEW") sampleFS "ca/ca.key"
    "OLD" (by decide) ⟨"y", by decide, by decide⟩ rfl
  exact ⟨h.1, h.2.2.1 (fun q => q == "ca/ca.key") sampleFS pipelineSteps
    Step.caKey (by decide) (by decide)⟩

/-- C9: `ask_clean` of a path that does not exist returns `true` without
consuming any operator reply, and in `main` an absent listed artifact is
marked not-kept and (in a run where every toolchain invocation succeeds)
ends the run present on disk. -/
theorem C9_absent_artifact_generated (fs : FS) (removeOk : String → Bool)
    (rs : List String) (replies : String → List String) (p : String)
    (a : GenArgs) (ec : Step → Int) (gen : Step → String)
    (habs : fs p = none) :
    askClean fs removeOk rs p = some (fs, true) ∧
    (p ∈ files a → (∀ t, ec t = 0) →
      Option.all (fun g => (g p).isSome)
        (mainRun a removeOk replies ec gen fs) = true) := by
  constructor
  · simp [askClean, habs]
  · intro hmem hz
    unfold mainRun
    cases hpp : promptPhase removeOk replies fs (fun _ => false)
        (files a) with
    | none => rfl
    | some out =>
      obtain ⟨fs1, km⟩ := out
      obtain ⟨h1, h2⟩ := promptPhase_absent removeOk replies p (files a) fs
        (fun _ => false) habs (fs1, km) hpp
      have h1' : fs1 p = none := h1
      have hkm : km p = false := by
        have := h2
        rw [if_pos hmem] at this
        exact this
      simp only [Option.all]
      have hmem' := hmem
      simp only [files, List.mem_cons, List.not_mem_nil, or_false]
        at hmem'
      rcases hmem' with hp | hp | hp | hp | hp | hp | hp | hp | hp | hp | hp
      -- the nine step artifacts: the step is invoked and writes p
      · subst hp
        exact pipelineExec_writes a km ec gen Step.caKey hz hkm
          pipelineSteps _ (by decide)
      · subst hp
        exact pipelineExec_writes a km ec gen Step.caCert hz hkm
          pipelineSteps _ (by decide)
      · subst hp
        exact pipelineExec_writes a km ec gen Step.serverKey hz hkm
          pipelineSteps _ (by decide)
      · subst hp
        exact pipelineExec_writes a km ec gen Step.serverCsr hz hkm
          pipelineSteps _ (by decide)
      · subst hp
        exact pipelineExec_writes a km ec gen Step.serverCert hz hkm
          pipelineSteps _ (by decide)
      · subst hp
        exact pipelineExec_writes a km ec gen Step.clientKey hz hkm
          pipelineSteps _ (by decide)
      · subst hp
        exact pipelineExec_writes a km ec gen Step.clientCsr hz hkm
          pipelineSteps _ (by decide)
      · subst hp
        exact pipelineExec_writes a km ec gen Step.clientCert hz hkm
          pipelineSteps _ (by decide)
      · subst hp
        exact pipelineExec_writes a km ec gen Step.clientP12 hz hkm
          pipelineSteps _ (by decide)
      -- p = serverSan a : created by the server SAN write, preserved
      · subst hp
        refine pipelineExec_defined a km ec gen (serverSan a)
          pipelineSteps _ ?_
        have hfs2 : ((if km (serverSan a) then fs1
            else write_san_config fs1 (serverSan a) a.server_name
              [a.server_name]) (serverSan a)).isSome = true := by
          rw [hkm]
          simp [write_san_config, fsWrite]
        by_cases hc : km (clientSan a) = true
        · rw [if_pos hc]
          exact hfs2
        · rw [if_neg hc]
          simp only [write_san_config] at hfs2
          simp only [write_san_config, fsWrite]
          by_cases he : serverSan a = clientSan a <;> simp [he, hfs2]
      -- p = clientSan a : the client SAN write itself creates p
      · subst hp
        refine pipelineExec_defined a km ec gen (clientSan a)
          pipelineSteps _ ?_
        rw [hkm]
        simp [write_san_config, fsWrite]

/-- Witness for C9: on an empty disk with no failures, the CA key is
generated. -/
theorem C9_absent_artifact_generated_witness :
    askClean fsEmpty (fun _ => true) [] "ca/ca.key" =
      some (fsEmpty, true) ∧
    Option.all (fun g => (g "ca/ca.key").isSome)
      (mainRun sampleArgs (fun _ => true) (fun _ => []) (fun _ => 0)
        (fun _ => "NEW") fsEmpty) = true := by
  have h := C9_absent_artifact_generated fsEmpty (fun _ => true) []
    (fun _ => []) "ca/ca.key" sampleArgs (fun _ => 0) (fun _ => "NEW") rfl
  exact ⟨h.1, h.2 (by decide) (fun t => rfl)⟩

/-- C10: at the overwrite prompt an empty reply declines and keeps the
file; a reply that normalises (strip + lowercase) to none of `y`, `yes`,
`n`, `no`, `""` merely re-prompts; and the reply `ask_clean` finally acts
on is always one of those five. -/
theorem C10_prompt_reply_normalisation :
    (∀ (fs : FS) (removeOk : String → Bool) (p c : String)
        (rest : List String), fs p = some c →
      askClean fs removeOk ("" :: rest) p = some (fs, false)) ∧
    (∀ (fs : FS) (removeOk : String → Bool) (p r : String)
        (rest : List String),
      ¬(normReply r = "y" ∨ normReply r = "yes" ∨ normReply r = "n" ∨
          normReply r = "no" ∨ normReply r = "") →
      askClean fs removeOk (r :: rest) p = askClean fs removeOk rest p) ∧
    (∀ (rs : List String) (t : String), firstValidReply rs = some t →
      t = "y" ∨ t = "yes" ∨ t = "n" ∨ t = "no" ∨ t = "") := by
  refine ⟨?_, ?_, ?_⟩
  · intro fs removeOk p c rest hfs
    have h1 : firstValidReply ("" :: rest) = some "" := rfl
    simp only [askClean, hfs, h1]
    rw [if_neg (by decide : ¬("" = "y" ∨ "" = "yes"))]
  · intro fs removeOk p r rest hr
    have h1 : firstValidReply (r :: rest) = firstValidReply rest := by
      simp only [firstValidReply]
      rw [if_neg hr]
    simp only [askClean, h1]
  · intro rs
    induction rs with
    | nil => intro t h; cases h
    | cons r rest ih =>
      intro t h
      simp only [firstValidReply] at h
      by_cases hv : normReply r = "y" ∨ normReply r = "yes" ∨
          normReply r = "n" ∨ normReply r = "no" ∨ normReply r = ""
      · rw [if_pos hv] at h
        cases h
        exact hv
      · rw [if_neg hv] at h
        exact ih t h

/-- Witness for C10: the empty default declines, an invalid reply
re-prompts, and a first valid reply is in the accepted set. -/
theorem C10_prompt_reply_normalisation_witness :
    askClean sampleFS (fun _ => true) [""] "ca/ca.key" =
      some (sampleFS, false) ∧
    askClean sampleFS (fun _ => true) ["maybe", "n"] "ca/ca.key" =
      askClean sampleFS (fun _ => true) ["n"] "ca/ca.key" ∧
    ("y" = "y" ∨ "y" = "yes" ∨ "y" = "n" ∨ "y" = "no" ∨ "y" = "") :=
  ⟨C10_prompt_reply_normalisation.1 sampleFS (fun _ => true) "ca/ca.key"
      "OLD" [] (by decide),
   C10_prompt_reply_normalisation.2.1 sampleFS (fun _ => true) "ca/ca.key"
      "maybe" ["n"] (by decide),
   C10_prompt_reply_normalisation.2.2 ["y"] "y" (by decide)⟩

end ClientCertifTLS
